import Mathlib

/-!
Verification development for the cryptographic core of the fileSharing client
(`src/client/qt_client`).  Byte strings are modelled as `List Nat` with each
entry below 256.  External primitives that live outside the repository
(OpenSSL's AES block function, libsodium's X25519 scalar multiplication and
Argon2id, the SHA-256 compression, the two signature schemes, and
nlohmann-json's text dump/parse) enter the model as explicit function
parameters, constrained only by the contracts the code relies on (output
lengths, Diffie-Hellman commutativity, dump/parse inversion).  Everything
written in the repository itself — base64 (libsodium VARIANT_ORIGINAL framing
as used by `FileClientData::base64_encode/decode`), CTR-mode framing, hex
encoding, canonical-string construction, the handlers' control flow, the
vault operations — is translated directly from the sources.
-/

namespace FS

/-- All entries of a byte list are genuine bytes. -/
def ByteOk (l : List Nat) : Prop := ∀ b ∈ l, b < 256

instance (l : List Nat) : Decidable (ByteOk l) := by
  unfold ByteOk; infer_instance

/-! ## Base64, standard alphabet with padding
(`sodium_base64_VARIANT_ORIGINAL`, used by `FileClientData::base64_encode`
and `base64_decode` and by `KeyBundle::toBase64/fromBase64`). -/

/-- The standard base64 alphabet as a function from a 6-bit value to the
character code: A-Z, a-z, 0-9, +, /. -/
def b64Char (v : Nat) : Nat :=
  if v < 26 then 65 + v
  else if v < 52 then 71 + v
  else if v < 62 then v - 4
  else if v = 62 then 43
  else 47

/-- Inverse of the base64 alphabet; 61 is the padding character and maps to
none, as do all characters outside the alphabet. -/
def b64Val (c : Nat) : Option Nat :=
  if 65 ≤ c ∧ c ≤ 90 then some (c - 65)
  else if 97 ≤ c ∧ c ≤ 122 then some (c - 71)
  else if 48 ≤ c ∧ c ≤ 57 then some (c + 4)
  else if c = 43 then some 62
  else if c = 47 then some 63
  else none

/-- Base64 encoding with `=` padding (character 61), three input bytes per
four output characters. -/
def base64Encode : List Nat → List Nat
  | a :: b :: c :: rest =>
      b64Char ((a * 65536 + b * 256 + c) / 262144) ::
      b64Char ((a * 65536 + b * 256 + c) / 4096 % 64) ::
      b64Char ((a * 65536 + b * 256 + c) / 64 % 64) ::
      b64Char ((a * 65536 + b * 256 + c) % 64) :: base64Encode rest
  | [a, b] =>
      [b64Char ((a * 1024 + b * 4) / 4096), b64Char ((a * 1024 + b * 4) / 64 % 64),
       b64Char ((a * 1024 + b * 4) % 64), 61]
  | [a] =>
      [b64Char (a * 16 / 64), b64Char (a * 16 % 64), 61, 61]
  | [] => []

/-- Base64 decoding of a padded base64 string; `none` models the
`sodium_base642bin` failure that `base64_decode` turns into an exception. -/
def base64Decode : List Nat → Option (List Nat)
  | [] => some []
  | c1 :: c2 :: c3 :: c4 :: rest =>
      match b64Val c1, b64Val c2 with
      | some v1, some v2 =>
        if c3 = 61 then
          if c4 = 61 ∧ rest = [] then some [(v1 * 64 + v2) / 16] else none
        else
          match b64Val c3 with
          | some v3 =>
            if c4 = 61 then
              if rest = [] then
                some [(v1 * 4096 + v2 * 64 + v3) / 1024,
                      (v1 * 4096 + v2 * 64 + v3) / 4 % 256]
              else none
            else
              match b64Val c4 with
              | some v4 =>
                match base64Decode rest with
                | some bs =>
                    some ((v1 * 262144 + v2 * 4096 + v3 * 64 + v4) / 65536 ::
                          (v1 * 262144 + v2 * 4096 + v3 * 64 + v4) / 256 % 256 ::
                          (v1 * 262144 + v2 * 4096 + v3 * 64 + v4) % 256 :: bs)
                | none => none
              | none => none
          | none => none
      | _, _ => none
  | _ => none

theorem b64Val_b64Char {v : Nat} (h : v < 64) : b64Val (b64Char v) = some v := by
  interval_cases v <;> rfl

theorem b64Char_ne_pad {v : Nat} (h : v < 64) : b64Char v ≠ 61 := by
  interval_cases v <;> decide

theorem b64Char_ne_pipe (v : Nat) : b64Char v ≠ 124 := by
  unfold b64Char
  split
  · omega
  · split
    · omega
    · split
      · omega
      · split <;> omega

theorem base64_roundtrip_aux : ∀ n : Nat, ∀ l : List Nat, l.length ≤ n → ByteOk l →
    base64Decode (base64Encode l) = some l := by
  intro n
  induction n using Nat.strong_induction_on with
  | _ n ih =>
    intro l hlen hok
    match l with
    | [] => rfl
    | [a] =>
        have ha : a < 256 := hok a (by simp)
        have h1 : a * 16 / 64 < 64 := by omega
        have h2 : a * 16 % 64 < 64 := by omega
        simp only [base64Encode, base64Decode, b64Val_b64Char h1, b64Val_b64Char h2,
          b64Char_ne_pad h1, b64Char_ne_pad h2, if_true, if_false, and_self,
          reduceIte, Option.some.injEq, List.cons.injEq, and_true]
        omega
    | [a, b] =>
        have ha : a < 256 := hok a (by simp)
        have hb : b < 256 := hok b (by simp)
        have h1 : (a * 1024 + b * 4) / 4096 < 64 := by omega
        have h2 : (a * 1024 + b * 4) / 64 % 64 < 64 := by omega
        have h3 : (a * 1024 + b * 4) % 64 < 64 := by omega
        simp only [base64Encode, base64Decode, b64Val_b64Char h1, b64Val_b64Char h2,
          b64Val_b64Char h3, b64Char_ne_pad h1, b64Char_ne_pad h3, if_true, if_false,
          and_self, reduceIte, Option.some.injEq, List.cons.injEq, and_true]
        generalize hgen : a * 1024 + b * 4 = w
        have hsum : w / 4096 * 4096 + w / 64 % 64 * 64 + w % 64 = w := by omega
        rw [hsum]
        omega
    | a :: b :: c :: rest =>
        have ha : a < 256 := hok a (by simp)
        have hb : b < 256 := hok b (by simp)
        have hc : c < 256 := hok c (by simp)
        have h1 : (a * 65536 + b * 256 + c) / 262144 < 64 := by omega
        have h2 : (a * 65536 + b * 256 + c) / 4096 % 64 < 64 := by omega
        have h3 : (a * 65536 + b * 256 + c) / 64 % 64 < 64 := by omega
        have h4 : (a * 65536 + b * 256 + c) % 64 < 64 := by omega
        have hrest : base64Decode (base64Encode rest) = some rest := by
          refine ih rest.length (by simp at hlen; omega) rest (le_refl _) ?_
          intro x hx; exact hok x (by simp [hx])
        simp only [base64Encode, base64Decode, b64Val_b64Char h1, b64Val_b64Char h2,
          b64Val_b64Char h3, b64Val_b64Char h4, b64Char_ne_pad h3, b64Char_ne_pad h4,
          if_true, if_false, reduceIte, hrest, Option.some.injEq, List.cons.injEq,
          and_true]
        generalize hgen : a * 65536 + b * 256 + c = w
        have hsum : w / 262144 * 262144 + w / 4096 % 64 * 4096 + w / 64 % 64 * 64 +
            w % 64 = w := by omega
        rw [hsum]
        omega

theorem base64_roundtrip (l : List Nat) (hok : ByteOk l) :
    base64Decode (base64Encode l) = some l :=
  base64_roundtrip_aux l.length l (le_refl _) hok

theorem base64_no_pipe_aux : ∀ n : Nat, ∀ l : List Nat, l.length ≤ n →
    124 ∉ base64Encode l := by
  intro n
  induction n using Nat.strong_induction_on with
  | _ n ih =>
    intro l hlen
    match l with
    | [] => simp [base64Encode]
    | [a] =>
        intro h
        simp only [base64Encode, List.mem_cons, List.not_mem_nil, or_false] at h
        rcases h with h | h | h | h
        · exact b64Char_ne_pipe _ h.symm
        · exact b64Char_ne_pipe _ h.symm
        · omega
        · omega
    | [a, b] =>
        intro h
        simp only [base64Encode, List.mem_cons, List.not_mem_nil, or_false] at h
        rcases h with h | h | h | h
        · exact b64Char_ne_pipe _ h.symm
        · exact b64Char_ne_pipe _ h.symm
        · exact b64Char_ne_pipe _ h.symm
        · omega
    | a :: b :: c :: rest =>
        have hrest : 124 ∉ base64Encode rest :=
          ih rest.length (by simp at hlen; omega) rest (le_refl _)
        intro h
        simp only [base64Encode, List.mem_cons] at h
        rcases h with h | h | h | h | h
        · exact b64Char_ne_pipe _ h.symm
        · exact b64Char_ne_pipe _ h.symm
        · exact b64Char_ne_pipe _ h.symm
        · exact b64Char_ne_pipe _ h.symm
        · exact hrest h

theorem base64Encode_no_pipe (l : List Nat) : 124 ∉ base64Encode l :=
  base64_no_pipe_aux l.length l (le_refl _)

theorem base64Encode_length_aux : ∀ n : Nat, ∀ l : List Nat, l.length ≤ n →
    (base64Encode l).length = (l.length + 2) / 3 * 4 := by
  intro n
  induction n using Nat.strong_induction_on with
  | _ n ih =>
    intro l hlen
    match l with
    | [] => rfl
    | [a] => simp [base64Encode]
    | [a, b] => simp [base64Encode]
    | a :: b :: c :: rest =>
        have hrest := ih rest.length (by simp at hlen; omega) rest (le_refl _)
        simp only [base64Encode, List.length_cons, hrest]
        omega

theorem base64Encode_length (l : List Nat) :
    (base64Encode l).length = (l.length + 2) / 3 * 4 :=
  base64Encode_length_aux l.length l (le_refl _)

/-! ## AES-256-CTR (`Symmetric::encrypt` / `Symmetric::decrypt`,
`src/client/qt_client/src/utils/crypto/symmetric.cpp`).

The AES-256 block function itself lives in OpenSSL, outside the repository;
it enters as the parameter `F : key → counter block → 16 keystream bytes`.
CTR mode XORs the data with the concatenated keystream blocks
`F key (iv + i)`, the 16-byte counter block being incremented big-endian
modulo 2^128.  `encrypt` requires a 32-byte key (else the C++ code throws
`invalid_argument`) and returns the ciphertext together with the fresh
16-byte IV, which is a parameter here standing for the `RAND_bytes` output;
`decrypt` additionally requires a 16-byte IV.  `none` models a throw. -/

def bytesToNatBE (l : List Nat) : Nat := l.foldl (fun acc b => acc * 256 + b) 0

def natToBytesBE16 (n : Nat) : List Nat :=
  (List.range 16).map (fun k => n / 256 ^ (15 - k) % 256)

def ctrBlock (iv : List Nat) (i : Nat) : List Nat :=
  natToBytesBE16 ((bytesToNatBE iv + i) % 2 ^ 128)

def keystream (F : List Nat → List Nat → List Nat) (key iv : List Nat)
    (n : Nat) : List Nat :=
  (((List.range ((n + 15) / 16)).map (fun i => F key (ctrBlock iv i))).flatten).take n

def ctrXor (F : List Nat → List Nat → List Nat) (key iv data : List Nat) :
    List Nat :=
  List.zipWith (fun a b => a ^^^ b) data (keystream F key iv data.length)

structure Ciphertext where
  data : List Nat
  iv : List Nat
deriving DecidableEq

def Symmetric.encrypt (F : List Nat → List Nat → List Nat) (iv : List Nat)
    (plaintext key : List Nat) : Option Ciphertext :=
  if key.length = 32 then some ⟨ctrXor F key iv plaintext, iv⟩ else none

def Symmetric.decrypt (F : List Nat → List Nat → List Nat)
    (ciphertext key iv : List Nat) : Option (List Nat) :=
  if key.length = 32 ∧ iv.length = 16 then some (ctrXor F key iv ciphertext)
  else none

/-- A block function is well-formed for a key when every keystream block it
produces is 16 bytes of genuine byte values (true of AES). -/
def BlockOk (F : List Nat → List Nat → List Nat) (key : List Nat) : Prop :=
  ∀ c : List Nat, (F key c).length = 16 ∧ ByteOk (F key c)

theorem keystream_length {F : List Nat → List Nat → List Nat} {key : List Nat}
    (hF : BlockOk F key) (iv : List Nat) (n : Nat) :
    (keystream F key iv n).length = n := by
  unfold keystream
  rw [List.length_take, List.length_flatten]
  have hmap : ((List.range ((n + 15) / 16)).map
      (fun i => F key (ctrBlock iv i))).map List.length =
      List.replicate ((n + 15) / 16) 16 := by
    rw [List.map_map, List.eq_replicate_iff]
    refine ⟨by simp, ?_⟩
    intro x hx
    rcases List.mem_map.mp hx with ⟨i, _, hi⟩
    rw [← hi]
    exact (hF (ctrBlock iv i)).1
  rw [hmap, List.sum_replicate, smul_eq_mul]
  omega

theorem keystream_byteOk {F : List Nat → List Nat → List Nat} {key : List Nat}
    (hF : BlockOk F key) (iv : List Nat) (n : Nat) :
    ByteOk (keystream F key iv n) := by
  intro b hb
  unfold keystream at hb
  have hb2 := List.mem_of_mem_take hb
  rcases List.mem_flatten.mp hb2 with ⟨blk, hblk, hbin⟩
  rcases List.mem_map.mp hblk with ⟨i, _, hi⟩
  exact (hF (ctrBlock iv i)).2 b (hi ▸ hbin)

theorem zipXor_cancel : ∀ (l ks : List Nat), l.length ≤ ks.length →
    List.zipWith (fun a b => a ^^^ b)
      (List.zipWith (fun a b => a ^^^ b) l ks) ks = l := by
  intro l
  induction l with
  | nil => intro ks _; simp
  | cons a l ihl =>
      intro ks hlen
      match ks with
      | [] => simp at hlen
      | k :: ks =>
          simp only [List.zipWith_cons_cons, List.cons.injEq]
          exact ⟨Nat.xor_cancel_right k a, ihl ks (by simpa using hlen)⟩

theorem ctrXor_length {F : List Nat → List Nat → List Nat} {key : List Nat}
    (hF : BlockOk F key) (iv data : List Nat) :
    (ctrXor F key iv data).length = data.length := by
  unfold ctrXor
  rw [List.length_zipWith, keystream_length hF]
  omega

theorem ctrXor_ctrXor {F : List Nat → List Nat → List Nat} {key : List Nat}
    (hF : BlockOk F key) (iv data : List Nat) :
    ctrXor F key iv (ctrXor F key iv data) = data := by
  have hlen := ctrXor_length hF iv data
  rw [ctrXor, hlen, ctrXor]
  exact zipXor_cancel data (keystream F key iv data.length)
    (by rw [keystream_length hF])

theorem zipXor_byteOk : ∀ (l ks : List Nat), ByteOk l → ByteOk ks →
    ByteOk (List.zipWith (fun a b => a ^^^ b) l ks) := by
  intro l
  induction l with
  | nil => intro ks _ _; simp [ByteOk]
  | cons a l ihl =>
      intro ks hl hks
      match ks with
      | [] => simp [ByteOk]
      | k :: ks =>
          intro b hb
          simp only [List.zipWith_cons_cons, List.mem_cons] at hb
          rcases hb with hb | hb
          · subst hb
            exact Nat.xor_lt_two_pow (n := 8) (hl a (by simp)) (hks k (by simp))
          · exact ihl ks (fun x hx => hl x (by simp [hx]))
              (fun x hx => hks x (by simp [hx])) b hb

theorem ctrXor_byteOk {F : List Nat → List Nat → List Nat} {key : List Nat}
    (hF : BlockOk F key) (iv data : List Nat) (hd : ByteOk data) :
    ByteOk (ctrXor F key iv data) :=
  zipXor_byteOk data _ hd (keystream_byteOk hF iv data.length)

/-! ## Hex encoding and the two signature-input strings.

`toHex` is the lowercase hex encoder of `filedownloadhandler.cpp` (`toHex`)
and `downloadfilehandler.cpp` (`bytesToHex`).  `buildSignatureInput` is
`FileUploadHandler::buildSignatureInput`: the message the upload handler
actually signs is `username|fileB64|metaB64` over the *base64* ciphertexts.
`verifierCanonical` is the message both download handlers reconstruct and
verify: `username|hex(sha256(cFile))|hex(sha256(cMeta))`.  SHA-256 itself is
OpenSSL code outside the repository and enters as the parameter `sha`,
constrained to produce 32-byte digests. -/

def hexDigitChar (n : Nat) : Nat := if n < 10 then 48 + n else 87 + n

def toHex (data : List Nat) : List Nat :=
  (data.map (fun b => [hexDigitChar (b / 16), hexDigitChar (b % 16)])).flatten

theorem toHex_length : ∀ l : List Nat, (toHex l).length = 2 * l.length := by
  intro l
  induction l with
  | nil => rfl
  | cons a l ih =>
      simp only [toHex, List.map_cons, List.flatten_cons] at ih ⊢
      simp only [List.length_append, List.length_cons, List.length_nil, ih]
      simp
      omega

def buildSignatureInput (uname fileB64 metaB64 : List Nat) : List Nat :=
  uname ++ [124] ++ fileB64 ++ [124] ++ metaB64

def verifierCanonical (sha : List Nat → List Nat)
    (username fileCipher metaCipher : List Nat) : List Nat :=
  username ++ [124] ++ toHex (sha fileCipher) ++ [124] ++ toHex (sha metaCipher)

/-- The byte string of the username `alice` from the spec's concrete
scenario. -/
def aliceBytes : List Nat := [97, 108, 105, 99, 101]

/-- C5: for every plaintext and every 32-byte key, decrypting the ciphertext
produced by `Symmetric::encrypt` under the same key and the IV returned by
that call yields exactly the plaintext.  The AES block function `F` is
universally quantified; the fresh 16-byte IV generated inside `encrypt` is
the parameter `iv`. -/
theorem symmetric_roundtrip
    (F : List Nat → List Nat → List Nat) (key iv plaintext : List Nat)
    (hF : BlockOk F key) (hkey : key.length = 32) (hiv : iv.length = 16) :
    ∃ c : Ciphertext, Symmetric.encrypt F iv plaintext key = some c ∧
      Symmetric.decrypt F c.data key c.iv = some plaintext := by
  refine ⟨⟨ctrXor F key iv plaintext, iv⟩, ?_, ?_⟩
  · simp [Symmetric.encrypt, hkey]
  · simp [Symmetric.decrypt, hkey, hiv, ctrXor_ctrXor hF]

/-- The all-zero AES block function used to discharge hypotheses in
witnesses; it satisfies the length and byte-range contract of the real
block function. -/
def zeroBlock : List Nat → List Nat → List Nat := fun _ _ => List.replicate 16 0

theorem zeroBlock_ok (key : List Nat) : BlockOk zeroBlock key := by
  intro c
  constructor
  · rfl
  · intro b hb
    simp [zeroBlock] at hb
    omega

/-- C5 witness: the spec's concrete scenario, plaintext `hello` under the
all-zero 32-byte key. -/
theorem symmetric_roundtrip_witness :
    ∃ c : Ciphertext,
      Symmetric.encrypt zeroBlock (List.replicate 16 0)
        [104, 101, 108, 108, 111] (List.replicate 32 0) = some c ∧
      Symmetric.decrypt zeroBlock c.data (List.replicate 32 0) c.iv =
        some [104, 101, 108, 108, 111] :=
  symmetric_roundtrip zeroBlock (List.replicate 32 0) (List.replicate 16 0)
    [104, 101, 108, 108, 111] (zeroBlock_ok _) rfl rfl

/-- C10: CTR mode is length-preserving in both directions and appends no
authentication tag: the ciphertext is exactly as long as the plaintext and
the decrypted plaintext is exactly as long as the ciphertext, so the
exactly-32-byte check in `FileListHandler::unwrapKeysFromJson` holds iff the
wrapped blob itself is 32 bytes long. -/
theorem symmetric_length_preserving
    (F : List Nat → List Nat → List Nat) (key iv pt ct : List Nat)
    (hF : BlockOk F key) (hkey : key.length = 32) (hiv : iv.length = 16) :
    (∃ c : Ciphertext, Symmetric.encrypt F iv pt key = some c ∧
      c.data.length = pt.length ∧ c.iv = iv) ∧
    (∃ p : List Nat, Symmetric.decrypt F ct key iv = some p ∧
      p.length = ct.length ∧ (p.length = 32 ↔ ct.length = 32)) := by
  constructor
  · refine ⟨⟨ctrXor F key iv pt, iv⟩, ?_, ?_, rfl⟩
    · simp [Symmetric.encrypt, hkey]
    · exact ctrXor_length hF iv pt
  · refine ⟨ctrXor F key iv ct, ?_, ?_, ?_⟩
    · simp [Symmetric.decrypt, hkey, hiv]
    · exact ctrXor_length hF iv ct
    · rw [ctrXor_length hF iv ct]

/-- C10 witness: concrete instance with a 5-byte plaintext and a 32-byte
wrapped blob. -/
theorem symmetric_length_preserving_witness :
    (∃ c : Ciphertext,
      Symmetric.encrypt zeroBlock (List.replicate 16 0)
        [104, 101, 108, 108, 111] (List.replicate 32 0) = some c ∧
      c.data.length = [104, 101, 108, 108, 111].length ∧
      c.iv = List.replicate 16 0) ∧
    (∃ p : List Nat,
      Symmetric.decrypt zeroBlock (List.replicate 32 7) (List.replicate 32 0)
        (List.replicate 16 0) = some p ∧
      p.length = (List.replicate 32 7).length ∧
      (p.length = 32 ↔ (List.replicate (n := 32) 7).length = 32)) :=
  symmetric_length_preserving zeroBlock (List.replicate 32 0)
    (List.replicate 16 0) [104, 101, 108, 108, 111] (List.replicate 32 7)
    (zeroBlock_ok _) rfl rfl

/-- C1: the message the upload handler signs is
`username|base64(cFile)|base64(cMeta)` (`buildSignatureInput`), which
differs from the `username|hex(sha256(cFile))|hex(sha256(cMeta))` message
that the claim states and that both download verifiers reconstruct: at
username `alice` with one-byte ciphertexts `[0]` the two strings cannot be
equal for any 32-byte digest function, because their lengths are 15 and 135
respectively. -/
theorem upload_signature_message_mismatch
    (sha : List Nat → List Nat) (h32 : ∀ x : List Nat, (sha x).length = 32) :
    buildSignatureInput aliceBytes (base64Encode [0]) (base64Encode [0]) ≠
      verifierCanonical sha aliceBytes [0] [0] := by
  intro h
  have hlen := congrArg List.length h
  simp only [buildSignatureInput, verifierCanonical, List.length_append,
    toHex_length, h32, base64Encode_length, List.length_cons,
    List.length_nil] at hlen
  simp [aliceBytes] at hlen

/-- C1 witness: the mismatch at the all-zero 32-byte digest function. -/
theorem upload_signature_message_mismatch_witness :
    buildSignatureInput aliceBytes (base64Encode [0]) (base64Encode [0]) ≠
      verifierCanonical (fun _ => List.replicate 32 0) aliceBytes [0] [0] :=
  upload_signature_message_mismatch (fun _ => List.replicate 32 0)
    (fun _ => rfl)

/-! ## Request authentication
(`NetworkAuthUtils::makeCanonicalString` / `makeAuthHeaders` in
`NetworkAuthUtils.h` and `SigningHelper::createHybridSignature` in
`signinghelper.cpp`).  The two signing primitives (Ed25519 via libsodium,
Dilithium via liboqs) are outside the repository and enter as the
parameters `signEd` and `signPq`, each mapping the canonical byte string to
a raw signature; the current UTC timestamp is likewise a parameter. -/

def makeCanonicalString (username timestamp method path bodyJson : List Nat) :
    List Nat :=
  username ++ [124] ++ timestamp ++ [124] ++ method ++ [124] ++ path ++ [124]
    ++ bodyJson

structure AuthHeaders where
  xUsername : List Nat
  xTimestamp : List Nat
  xSignature : List Nat
deriving DecidableEq

def makeAuthHeaders (signEd signPq : List Nat → List Nat)
    (timestamp username method path bodyJson : List Nat) : AuthHeaders :=
  ⟨username, timestamp,
    base64Encode (signEd (makeCanonicalString username timestamp method path
      bodyJson)) ++ [124, 124] ++
    base64Encode (signPq (makeCanonicalString username timestamp method path
      bodyJson))⟩

def createHybridSignature (signEd signPq : List Nat → List Nat)
    (username timestamp method path body : List Nat) : List Nat :=
  base64Encode (signEd (makeCanonicalString username timestamp method path
    body)) ++ [124, 124] ++
  base64Encode (signPq (makeCanonicalString username timestamp method path
    body))

/-- Number of (possibly overlapping) occurrences of the two-character
substring consisting of two pipes in a byte string. -/
def pipePairCount : List Nat → Nat
  | a :: b :: rest =>
      (if a = 124 ∧ b = 124 then 1 else 0) + pipePairCount (b :: rest)
  | _ => 0

theorem pipePairCount_of_no_pipe : ∀ l : List Nat, 124 ∉ l →
    pipePairCount l = 0 := by
  intro l
  induction l with
  | nil => intro _; rfl
  | cons a rest ih =>
      intro h
      match rest with
      | [] => rfl
      | b :: rest2 =>
          have ha : a ≠ 124 := fun hc => h (by simp [hc])
          have h2 : pipePairCount (b :: rest2) = 0 :=
            ih (fun hc => h (by simp [hc]))
          simp only [pipePairCount, h2]
          simp [fun hc : a = 124 => ha hc]

theorem pipePairCount_cons_pipe (y : List Nat) (hy : 124 ∉ y) :
    pipePairCount (124 :: y) = 0 := by
  match y with
  | [] => rfl
  | c :: y2 =>
      have hc : c ≠ 124 := fun hc => hy (by simp [hc])
      have h2 : pipePairCount (c :: y2) = 0 := pipePairCount_of_no_pipe _ hy
      simp only [pipePairCount, h2]
      simp [fun h : c = 124 => hc h]

theorem pipePairCount_sep : ∀ x : List Nat, ∀ y : List Nat, 124 ∉ x → 124 ∉ y →
    pipePairCount (x ++ 124 :: 124 :: y) = 1 := by
  intro x
  induction x with
  | nil =>
      intro y _ hy
      have h1 : pipePairCount (124 :: y) = 0 := pipePairCount_cons_pipe y hy
      simp only [List.nil_append, pipePairCount, h1]
      simp
  | cons a x2 ih =>
      intro y hx hy
      have ha : a ≠ 124 := fun hc => hx (by simp [hc])
      have hx2 : 124 ∉ x2 := fun hc => hx (by simp [hc])
      match x2 with
      | [] =>
          have h1 : pipePairCount (124 :: 124 :: y) = 1 := ih y (by simp) hy
          simp only [List.cons_append, List.nil_append, pipePairCount] at h1 ⊢
          simp [fun h : a = 124 => ha h] at h1 ⊢
          omega
      | b :: x3 =>
          have hb : b ≠ 124 := fun hc => hx2 (by simp [hc])
          have h1 : pipePairCount ((b :: x3) ++ 124 :: 124 :: y) = 1 :=
            ih y hx2 hy
          simp only [List.cons_append] at h1 ⊢
          simp only [pipePairCount]
          rw [if_neg (fun hc => ha hc.1)]
          simpa using h1

/-- C9: the canonical request string is exactly the five fields username,
timestamp, method, path, raw body joined by the pipe character in that
order, and the X-Signature header value produced both by
`NetworkAuthUtils::makeAuthHeaders` and by
`SigningHelper::createHybridSignature` is
`base64(classicalSig) ++ two pipes ++ base64(pqSig)`, containing exactly
one double-pipe separator. -/
theorem auth_canonical_and_signature_format
    (signEd signPq : List Nat → List Nat)
    (username timestamp method path bodyJson : List Nat) :
    makeCanonicalString username timestamp method path bodyJson =
      username ++ [124] ++ timestamp ++ [124] ++ method ++ [124] ++ path ++
        [124] ++ bodyJson ∧
    (makeAuthHeaders signEd signPq timestamp username method path
        bodyJson).xSignature =
      base64Encode (signEd (makeCanonicalString username timestamp method path
        bodyJson)) ++ [124, 124] ++
      base64Encode (signPq (makeCanonicalString username timestamp method path
        bodyJson)) ∧
    createHybridSignature signEd signPq username timestamp method path
        bodyJson =
      (makeAuthHeaders signEd signPq timestamp username method path
        bodyJson).xSignature ∧
    pipePairCount ((makeAuthHeaders signEd signPq timestamp username method
        path bodyJson).xSignature) = 1 := by
  refine ⟨rfl, rfl, rfl, ?_⟩
  have h := pipePairCount_sep
    (base64Encode (signEd (makeCanonicalString username timestamp method path
      bodyJson)))
    (base64Encode (signPq (makeCanonicalString username timestamp method path
      bodyJson)))
    (base64Encode_no_pipe _) (base64Encode_no_pipe _)
  simpa [makeAuthHeaders, List.append_assoc] using h

/-! ## The dual encoding of response fields
(`fieldToBase64` in `filedownloadhandler.cpp` and the Buffer-only metadata
extraction in `downloadfilehandler.cpp`, step 8.a). -/

/-- Shape of a JSON field as the download handlers see it: a base64 string,
a node-style Buffer object carrying an array of byte values, or anything
else. -/
inductive JsonField where
  | str (s : List Nat)
  | buffer (bytes : List Nat)
  | other
deriving DecidableEq

/-- `fieldToBase64` (`filedownloadhandler.cpp`): a string is passed through
as base64; a Buffer object is converted to base64 of its bytes; any other
shape throws (`none`). -/
def fieldToBase64 : JsonField → Option (List Nat)
  | .str s => some s
  | .buffer bytes => some (base64Encode bytes)
  | .other => none

/-- The metadata extraction of `DownloadFileHandler::processSingleFile`
(step 8.a, `downloadfilehandler.cpp` lines 167-192): only the Buffer object
form is accepted, and an empty byte array is rejected. -/
def extractMetadataBuffer : JsonField → Option (List Nat)
  | .buffer bytes => if bytes = [] then none else some bytes
  | _ => none

/-- C8 counterexample: a metadata field arriving as a base64 string is
rejected outright by `DownloadFileHandler` (its extraction requires the
Buffer object shape), even though `FileDownloadHandler::fieldToBase64`
accepts exactly the same field, so the claim that every download response
accepts both encodings is false. -/
theorem metadata_string_form_rejected :
    extractMetadataBuffer (.str (base64Encode [0])) = none ∧
    fieldToBase64 (.str (base64Encode [0])) = some (base64Encode [0]) :=
  ⟨rfl, rfl⟩

/-- C8 amended: in `FileDownloadHandler` the metadata field is accepted both
as a base64 string and as an equivalent Buffer object, and the two forms
decode to identical ciphertext bytes before hashing; `DownloadFileHandler`
accepts only the Buffer form and rejects a base64 string. -/
theorem metadata_dual_encoding (B : List Nat) (hB : ByteOk B) :
    (fieldToBase64 (.str (base64Encode B))).bind base64Decode = some B ∧
    (fieldToBase64 (.buffer B)).bind base64Decode = some B ∧
    (∀ s : List Nat, extractMetadataBuffer (.str s) = none) := by
  refine ⟨?_, ?_, fun s => rfl⟩
  · simp [fieldToBase64, base64_roundtrip B hB]
  · simp [fieldToBase64, base64_roundtrip B hB]

/-- C8 witness: the single ciphertext byte 0, whose base64 string form and
Buffer form decode to the same bytes. -/
theorem metadata_dual_encoding_witness :
    (fieldToBase64 (.str (base64Encode [0]))).bind base64Decode = some [0] ∧
    (fieldToBase64 (.buffer [0])).bind base64Decode = some [0] ∧
    (∀ s : List Nat, extractMetadataBuffer (.str s) = none) :=
  metadata_dual_encoding [0] (by decide)

/-! ## The two download handlers' verify-then-decrypt control flow
(`FileDownloadHandler::processSingleFile` / `verifySignatures` in
`filedownloadhandler.cpp`, and `DownloadFileHandler::processSingleFile` in
`downloadfilehandler.cpp`).  The Ed25519 and Dilithium verification
primitives are outside the repository and enter as boolean-valued
parameters on (message, signature); `parseMeta` stands for the
nlohmann-json parse of the decrypted metadata.  Each model returns its
outcome together with the list of ciphertexts that were passed to
`Symmetric::decrypt`, so that "no ciphertext is decrypted" is expressible
as that list being empty. -/

structure DLResponse where
  isOwner : Bool
  fileContent : JsonField
  metadata : JsonField
  edSigB64 : List Nat
  pqSigB64 : List Nat

structure FCDKeys where
  fek : List Nat
  fileNonce : List Nat
  mek : List Nat
  metaNonce : List Nat

inductive DLOutcome where
  | failure
  | success (filePlain metaPlain : List Nat)
deriving DecidableEq

/-- `FileDownloadHandler::verifySignatures`: decode the two base64
ciphertexts, rebuild `username|sha256hex(file)|sha256hex(meta)`, verify
Ed25519 then Dilithium.  `none` models an exception from an invalid base64
decode; `some false` a failed verification. -/
def verifySignaturesModel (sha : List Nat → List Nat)
    (verifyEd verifyPq : List Nat → List Nat → Bool)
    (username fileB64 metaB64 edSigB64 pqSigB64 : List Nat) : Option Bool :=
  match base64Decode fileB64, base64Decode metaB64 with
  | some fileCipher, some metaCipher =>
      match base64Decode edSigB64 with
      | some edSig =>
          if verifyEd (verifierCanonical sha username fileCipher metaCipher)
              edSig = false then some false
          else
            match base64Decode pqSigB64 with
            | some pqSig =>
                some (verifyPq (verifierCanonical sha username fileCipher
                  metaCipher) pqSig)
            | none => none
      | none => none
  | _, _ => none

/-- `FileDownloadHandler::processSingleFile`, from the parsed response on:
owner check, extract both ciphertext fields in either encoding, verify both
signatures, and only then decrypt file and metadata under the locally
stored FEK/MEK and nonces. -/
def fileDownloadProcess (F : List Nat → List Nat → List Nat)
    (sha : List Nat → List Nat)
    (verifyEd verifyPq : List Nat → List Nat → Bool)
    (username : List Nat) (fcd : FCDKeys) (resp : DLResponse) :
    DLOutcome × List (List Nat) :=
  if resp.isOwner = false then (.failure, [])
  else
    match fieldToBase64 resp.fileContent, fieldToBase64 resp.metadata with
    | some fileB64, some metaB64 =>
        match verifySignaturesModel sha verifyEd verifyPq
            username fileB64 metaB64 resp.edSigB64 resp.pqSigB64 with
        | some true =>
            match base64Decode fileB64, base64Decode metaB64 with
            | some fileCipher, some metaCipher =>
                match Symmetric.decrypt F fileCipher fcd.fek fcd.fileNonce with
                | some plainFile =>
                    match Symmetric.decrypt F metaCipher fcd.mek
                        fcd.metaNonce with
                    | some plainMeta =>
                        (.success plainFile plainMeta, [fileCipher, metaCipher])
                    | none => (.failure, [fileCipher, metaCipher])
                | none => (.failure, [fileCipher])
            | _, _ => (.failure, [])
        | _ => (.failure, [])
    | _, _ => (.failure, [])

/-- `DownloadFileHandler::processSingleFile`, from the parsed response on:
decode file ciphertext and both signatures, extract the Buffer-form
metadata, owner check, verify Ed25519 and Dilithium over the reconstructed
message, then decrypt metadata and finally the file. -/
def downloadFileProcess (F : List Nat → List Nat → List Nat)
    (sha : List Nat → List Nat)
    (verifyEd verifyPq : List Nat → List Nat → Bool)
    (parseMeta : List Nat → Option (List Nat))
    (username : List Nat) (fcd : FCDKeys)
    (fileB64 edSigB64 pqSigB64 : List Nat) (metadata : JsonField)
    (isOwner : Bool) : DLOutcome × List (List Nat) :=
  match base64Decode fileB64, base64Decode edSigB64,
      base64Decode pqSigB64 with
  | some encFileData, some edSigRaw, some pqSigRaw =>
      if encFileData = [] ∨ edSigRaw = [] ∨ pqSigRaw = [] then (.failure, [])
      else
        match extractMetadataBuffer metadata with
        | none => (.failure, [])
        | some encMetaData =>
            if isOwner = false then (.failure, [])
            else
              if verifyEd (verifierCanonical sha username
                  encFileData encMetaData) edSigRaw = false then (.failure, [])
              else if verifyPq (verifierCanonical sha username
                  encFileData encMetaData) pqSigRaw = false then (.failure, [])
              else
                match Symmetric.decrypt F encMetaData fcd.mek
                    fcd.metaNonce with
                | none => (.failure, [encMetaData])
                | some plainMeta =>
                    if plainMeta = [] then (.failure, [encMetaData])
                    else
                      match parseMeta plainMeta with
                      | none => (.failure, [encMetaData])
                      | some _ =>
                          match Symmetric.decrypt F encFileData fcd.fek
                              fcd.fileNonce with
                          | none => (.failure, [encMetaData, encFileData])
                          | some plainFile =>
                              if plainFile = [] then
                                (.failure, [encMetaData, encFileData])
                              else
                                (.success plainFile plainMeta,
                                 [encMetaData, encFileData])
  | _, _, _ => (.failure, [])

/-- C2: in both download handlers, if the dual signature verification over
the reconstructed owner message does not complete with both signatures
valid, the operation fails and no ciphertext is ever passed to
`Symmetric::decrypt` — the outcome is failure with an empty list of
decryption calls, so no plaintext is produced. -/
theorem download_fails_closed
    (F F2 : List Nat → List Nat → List Nat) (sha sha2 : List Nat → List Nat)
    (verifyEd verifyPq verifyEd2 verifyPq2 : List Nat → List Nat → Bool)
    (parseMeta : List Nat → Option (List Nat))
    (username username2 : List Nat) (fcd fcd2 : FCDKeys) (resp : DLResponse)
    (fileB64 edSigB64 pqSigB64 : List Nat) (metadata : JsonField)
    (isOwner : Bool)
    (h1 : ∀ fb mb : List Nat, fieldToBase64 resp.fileContent = some fb →
      fieldToBase64 resp.metadata = some mb →
      verifySignaturesModel sha verifyEd verifyPq username fb mb
        resp.edSigB64 resp.pqSigB64 ≠ some true)
    (h2 : ∀ fc es ps mc : List Nat, base64Decode fileB64 = some fc →
      base64Decode edSigB64 = some es → base64Decode pqSigB64 = some ps →
      extractMetadataBuffer metadata = some mc →
      verifyEd2 (verifierCanonical sha2 username2 fc mc) es = false ∨
      verifyPq2 (verifierCanonical sha2 username2 fc mc) ps = false) :
    fileDownloadProcess F sha verifyEd verifyPq username fcd resp =
      (.failure, []) ∧
    downloadFileProcess F2 sha2 verifyEd2 verifyPq2 parseMeta username2 fcd2
      fileB64 edSigB64 pqSigB64 metadata isOwner = (.failure, []) := by
  constructor
  · unfold fileDownloadProcess
    by_cases how : resp.isOwner = false
    · simp [how]
    · rw [if_neg how]
      cases hfb : fieldToBase64 resp.fileContent with
      | none => rfl
      | some fb =>
          cases hmb : fieldToBase64 resp.metadata with
          | none => rfl
          | some mb =>
              cases hv : verifySignaturesModel sha verifyEd verifyPq username
                  fb mb resp.edSigB64 resp.pqSigB64 with
              | none => simp [hv]
              | some bv =>
                  cases bv with
                  | false => simp [hv]
                  | true => exact absurd hv (h1 fb mb hfb hmb)
  · unfold downloadFileProcess
    cases hfc : base64Decode fileB64 with
    | none => rfl
    | some fc =>
        cases hes : base64Decode edSigB64 with
        | none => rfl
        | some es =>
            cases hps : base64Decode pqSigB64 with
            | none => rfl
            | some ps =>
                by_cases hemp : fc = [] ∨ es = [] ∨ ps = []
                · simp [hemp]
                ·
                  cases hmc : extractMetadataBuffer metadata with
                  | none => simp [hemp, hmc]
                  | some mc =>
                      by_cases how2 : isOwner = false
                      · simp [hemp, hmc, how2]
                      · rcases h2 fc es ps mc hfc hes hps hmc with hvf | hvf
                        · simp [hemp, hmc, how2, hvf]
                        · by_cases hve : verifyEd2 (verifierCanonical sha2
                              username2 fc mc) es = false
                          · simp [hemp, hmc, how2, hve]
                          · simp [hemp, hmc, how2, hve, hvf]

/-- C2 witness: a response whose metadata field has an unexpected shape on
the first handler, and a failing classical verification on the second. -/
theorem download_fails_closed_witness :
    fileDownloadProcess zeroBlock (fun _ => List.replicate 32 0)
      (fun _ _ => true) (fun _ _ => true) aliceBytes
      ⟨List.replicate 32 0, List.replicate 16 0, List.replicate 32 0,
       List.replicate 16 0⟩
      ⟨true, .str (base64Encode [1]), .other, base64Encode [2],
       base64Encode [3]⟩ = (.failure, []) ∧
    downloadFileProcess zeroBlock (fun _ => List.replicate 32 0)
      (fun _ _ => false) (fun _ _ => true) (fun m => some m) aliceBytes
      ⟨List.replicate 32 0, List.replicate 16 0, List.replicate 32 0,
       List.replicate 16 0⟩
      (base64Encode [1]) (base64Encode [2]) (base64Encode [3]) (.buffer [4])
      true = (.failure, []) :=
  download_fails_closed zeroBlock zeroBlock (fun _ => List.replicate 32 0)
    (fun _ => List.replicate 32 0) (fun _ _ => true) (fun _ _ => true)
    (fun _ _ => false) (fun _ _ => true) (fun m => some m)
    aliceBytes aliceBytes
    ⟨List.replicate 32 0, List.replicate 16 0, List.replicate 32 0,
     List.replicate 16 0⟩
    ⟨List.replicate 32 0, List.replicate 16 0, List.replicate 32 0,
     List.replicate 16 0⟩
    ⟨true, .str (base64Encode [1]), .other, base64Encode [2],
     base64Encode [3]⟩
    (base64Encode [1]) (base64Encode [2]) (base64Encode [3]) (.buffer [4])
    true
    (fun fb mb hfb hmb => by simp [fieldToBase64] at hmb)
    (fun fc es ps mc hfc hes hps hmc => Or.inl rfl)

/-! ## The sharing protocol
(`FileShareHandler::processShare` steps 3-5 in `filesharehandler.cpp` and
`FileListHandler::unwrapKeysFromJson` in `filelisthandler.cpp`).

X25519 scalar multiplication is libsodium code outside the repository: `dh`
stands for `crypto_scalarmult` and `dhBase` for `crypto_scalarmult_base`,
constrained by the 32-byte output length and by commutativity of the
Diffie-Hellman exchange.  Both sides use the *raw* shared secret as the
AES-256 wrap key (`processShare`: "no SHA-256, just use it";
`unwrapKeysFromJson` decrypts directly under `sharedSecret`).  The
ephemeral private scalar and the two wrap IVs are randomness parameters. -/

structure ShareBody where
  encFekB64 : List Nat
  ivFekB64 : List Nat
  encMekB64 : List Nat
  ivMekB64 : List Nat
  ephPubB64 : List Nat
  fileNonceB64 : List Nat
  metaNonceB64 : List Nat
deriving DecidableEq

def processShareWrap (F : List Nat → List Nat → List Nat)
    (dh : List Nat → List Nat → List Nat) (dhBase : List Nat → List Nat)
    (ephPriv ivFek ivMek fek mek bobPub fileNonce metaNonce : List Nat) :
    Option ShareBody :=
  match Symmetric.encrypt F ivFek fek (dh ephPriv bobPub) with
  | none => none
  | some cF =>
      match Symmetric.encrypt F ivMek mek (dh ephPriv bobPub) with
      | none => none
      | some cM =>
          some ⟨base64Encode cF.data, base64Encode cF.iv,
                base64Encode cM.data, base64Encode cM.iv,
                base64Encode (dhBase ephPriv),
                base64Encode fileNonce, base64Encode metaNonce⟩

def unwrapKeysFromJson (F : List Nat → List Nat → List Nat)
    (dh : List Nat → List Nat → List Nat)
    (body : ShareBody) (myPrivB64 : List Nat) : Option (List Nat × List Nat) :=
  match base64Decode body.ephPubB64 with
  | none => none
  | some ephPub =>
      if ephPub.length ≠ 32 then none
      else
        match base64Decode myPrivB64 with
        | none => none
        | some myPriv =>
            if myPriv.length ≠ 32 then none
            else
              match base64Decode body.encFekB64, base64Decode body.ivFekB64 with
              | some encFEK, some nonceFEK =>
                  if nonceFEK.length ≠ 16 then none
                  else
                    match Symmetric.decrypt F encFEK (dh myPriv ephPub)
                        nonceFEK with
                    | none => none
                    | some fekPt =>
                        if fekPt.length ≠ 32 then none
                        else
                          match base64Decode body.encMekB64,
                              base64Decode body.ivMekB64 with
                          | some encMEK, some nonceMEK =>
                              if nonceMEK.length ≠ 16 then none
                              else
                                match Symmetric.decrypt F encMEK
                                    (dh myPriv ephPub) nonceMEK with
                                | none => none
                                | some mekPt =>
                                    if mekPt.length ≠ 32 then none
                                    else some (fekPt, mekPt)
                          | _, _ => none
              | _, _ => none

/-- C3: for every 32-byte FEK and MEK, recipient keypair
`(dhBase bobPriv, bobPriv)` and ephemeral scalar generated inside Share,
unwrapping the grant produced by `processShare` with the recipient's
private key recovers FEK and MEK bitwise-identical to the originals — both
sides derive the wrap key from the X25519 shared secret in the same way
(the raw secret, unhashed, on both sides). -/
theorem share_unwrap_roundtrip
    (F : List Nat → List Nat → List Nat)
    (dh : List Nat → List Nat → List Nat) (dhBase : List Nat → List Nat)
    (ephPriv bobPriv fek mek ivFek ivMek fileNonce metaNonce : List Nat)
    (hF : ∀ key : List Nat, BlockOk F key)
    (hdh32 : ∀ a p : List Nat, (dh a p).length = 32)
    (hcomm : dh bobPriv (dhBase ephPriv) = dh ephPriv (dhBase bobPriv))
    (hephPub32 : (dhBase ephPriv).length = 32)
    (hephPubOk : ByteOk (dhBase ephPriv))
    (hbobPriv32 : bobPriv.length = 32) (hbobPrivOk : ByteOk bobPriv)
    (hfek : fek.length = 32) (hfekOk : ByteOk fek)
    (hmek : mek.length = 32) (hmekOk : ByteOk mek)
    (hivF : ivFek.length = 16) (hivFOk : ByteOk ivFek)
    (hivM : ivMek.length = 16) (hivMOk : ByteOk ivMek) :
    ∃ body : ShareBody,
      processShareWrap F dh dhBase ephPriv ivFek ivMek fek mek
        (dhBase bobPriv) fileNonce metaNonce = some body ∧
      unwrapKeysFromJson F dh body (base64Encode bobPriv) = some (fek, mek) := by
  have hsh32 : (dh ephPriv (dhBase bobPriv)).length = 32 := hdh32 _ _
  have hFsh := hF (dh ephPriv (dhBase bobPriv))
  have henc1 : Symmetric.encrypt F ivFek fek (dh ephPriv (dhBase bobPriv)) =
      some ⟨ctrXor F (dh ephPriv (dhBase bobPriv)) ivFek fek, ivFek⟩ := by
    simp [Symmetric.encrypt, hsh32]
  have henc2 : Symmetric.encrypt F ivMek mek (dh ephPriv (dhBase bobPriv)) =
      some ⟨ctrXor F (dh ephPriv (dhBase bobPriv)) ivMek mek, ivMek⟩ := by
    simp [Symmetric.encrypt, hsh32]
  refine ⟨⟨base64Encode (ctrXor F (dh ephPriv (dhBase bobPriv)) ivFek fek),
           base64Encode ivFek,
           base64Encode (ctrXor F (dh ephPriv (dhBase bobPriv)) ivMek mek),
           base64Encode ivMek,
           base64Encode (dhBase ephPriv),
           base64Encode fileNonce, base64Encode metaNonce⟩, ?_, ?_⟩
  · simp [processShareWrap, henc1, henc2]
  · unfold unwrapKeysFromJson
    simp only [base64_roundtrip _ hephPubOk, base64_roundtrip _ hbobPrivOk,
      base64_roundtrip _ (ctrXor_byteOk hFsh ivFek fek hfekOk),
      base64_roundtrip _ (ctrXor_byteOk hFsh ivMek mek hmekOk),
      base64_roundtrip _ hivFOk, base64_roundtrip _ hivMOk]
    have hdec1 : Symmetric.decrypt F
        (ctrXor F (dh ephPriv (dhBase bobPriv)) ivFek fek)
        (dh bobPriv (dhBase ephPriv)) ivFek = some fek := by
      rw [hcomm]
      simp [Symmetric.decrypt, hsh32, hivF, ctrXor_ctrXor hFsh]
    have hdec2 : Symmetric.decrypt F
        (ctrXor F (dh ephPriv (dhBase bobPriv)) ivMek mek)
        (dh bobPriv (dhBase ephPriv)) ivMek = some mek := by
      rw [hcomm]
      simp [Symmetric.decrypt, hsh32, hivM, ctrXor_ctrXor hFsh]
    simp [hephPub32, hbobPriv32, hivF, hivM, hdec1, hdec2, hfek, hmek]

/-- The trivial Diffie-Hellman instantiation used to discharge the
hypotheses of witnesses: a constant 32-byte shared secret, which is
commutative by construction. -/
def constDh : List Nat → List Nat → List Nat := fun _ _ => List.replicate 32 9

/-- C3 witness: concrete 32-byte keys and scalars under the trivial
commutative Diffie-Hellman instance and the all-zero block function. -/
theorem share_unwrap_roundtrip_witness :
    ∃ body : ShareBody,
      processShareWrap zeroBlock constDh (fun x => x) (List.replicate 32 1)
        (List.replicate 16 5) (List.replicate 16 6) (List.replicate 32 3)
        (List.replicate 32 4) (List.replicate 32 2)
        (List.replicate 16 7) (List.replicate 16 8) = some body ∧
      unwrapKeysFromJson zeroBlock constDh body
        (base64Encode (List.replicate 32 2)) =
        some (List.replicate 32 3, List.replicate 32 4) := by
  have h := share_unwrap_roundtrip zeroBlock constDh (fun x => x)
    (List.replicate 32 1) (List.replicate 32 2) (List.replicate 32 3)
    (List.replicate 32 4) (List.replicate 16 5) (List.replicate 16 6)
    (List.replicate 16 7) (List.replicate 16 8)
    zeroBlock_ok (fun _ _ => rfl) rfl rfl (by decide) rfl (by decide)
    rfl (by decide) rfl (by decide) rfl (by decide) rfl (by decide)
  exact h

/-! ## KeyBundle private serialization
(`keybundle.cpp`: `toJsonPrivate` / `fromJsonPrivate`, with the SPKI-DER
wrapping of `derutils.cpp`).  For a 32-byte raw key OpenSSL's
`i2d_PUBKEY` emits the fixed 12-byte SPKI header followed by the raw key
(44 bytes total), and parsing inverts that; the headers below are the DER
prefixes for X25519 and Ed25519.  The JSON is modelled at the value level
as the six base64 strings `toJsonPrivate` stores; nlohmann-json's text
dump/parse is outside the repository and enters as a `dump`/`parse`
parameter pair that the vault theorems constrain by the library's
round-trip contract. -/

structure KeyBundle where
  x25519Pub : List Nat
  ed25519Pub : List Nat
  dilithiumPub : List Nat
  x25519Priv : List Nat
  ed25519Priv : List Nat
  dilithiumPriv : List Nat
deriving DecidableEq

def spkiHeaderX25519 : List Nat := [48, 42, 48, 5, 6, 3, 43, 101, 110, 3, 33, 0]

def spkiHeaderEd25519 : List Nat := [48, 42, 48, 5, 6, 3, 43, 101, 112, 3, 33, 0]

def derWrapX25519 (raw : List Nat) : Option (List Nat) :=
  if raw.length = 32 then some (spkiHeaderX25519 ++ raw) else none

def derWrapEd25519 (raw : List Nat) : Option (List Nat) :=
  if raw.length = 32 then some (spkiHeaderEd25519 ++ raw) else none

def parseX25519Spki (der : List Nat) : Option (List Nat) :=
  if der.length = 44 ∧ der.take 12 = spkiHeaderX25519 then some (der.drop 12)
  else none

def parseEd25519Spki (der : List Nat) : Option (List Nat) :=
  if der.length = 44 ∧ der.take 12 = spkiHeaderEd25519 then some (der.drop 12)
  else none

/-- The JSON value `KeyBundle::toJsonPrivate` produces: six base64
strings. -/
structure PrivJson where
  kemPubB64 : List Nat
  edPubB64 : List Nat
  dilPubB64 : List Nat
  kemPrivB64 : List Nat
  edPrivB64 : List Nat
  dilPrivB64 : List Nat
deriving DecidableEq

def toJsonPrivate (kb : KeyBundle) : Option PrivJson :=
  match derWrapX25519 kb.x25519Pub, derWrapEd25519 kb.ed25519Pub with
  | some xDer, some eDer =>
      if xDer.length = 44 ∧ eDer.length = 44 then
        some ⟨base64Encode xDer, base64Encode eDer,
              base64Encode kb.dilithiumPub, base64Encode kb.x25519Priv,
              base64Encode kb.ed25519Priv, base64Encode kb.dilithiumPriv⟩
      else none
  | _, _ => none

def fromJsonPrivate (pj : PrivJson) : Option KeyBundle :=
  match base64Decode pj.kemPubB64, base64Decode pj.edPubB64 with
  | some xDer, some eDer =>
      if xDer.length = 44 ∧ eDer.length = 44 then
        match parseX25519Spki xDer, parseEd25519Spki eDer with
        | some xPub, some ePub =>
            match base64Decode pj.dilPubB64, base64Decode pj.kemPrivB64,
                base64Decode pj.edPrivB64, base64Decode pj.dilPrivB64 with
            | some dPub, some xPriv, some ePriv, some dPriv =>
                if xPub.length = 32 ∧ ePub.length = 32 ∧ dPub ≠ [] ∧
                    xPriv.length = 32 ∧ ePriv.length = 64 ∧ dPriv ≠ [] then
                  some ⟨xPub, ePub, dPub, xPriv, ePriv, dPriv⟩
                else none
            | _, _, _, _ => none
        | _, _ => none
      else none
  | _, _ => none

/-- Well-formedness of a full KeyBundle: the key lengths the constructors
and generators of `keybundle.cpp` establish, with genuine byte values. -/
def KbOk (kb : KeyBundle) : Prop :=
  kb.x25519Pub.length = 32 ∧ ByteOk kb.x25519Pub ∧
  kb.ed25519Pub.length = 32 ∧ ByteOk kb.ed25519Pub ∧
  kb.dilithiumPub ≠ [] ∧ ByteOk kb.dilithiumPub ∧
  kb.x25519Priv.length = 32 ∧ ByteOk kb.x25519Priv ∧
  kb.ed25519Priv.length = 64 ∧ ByteOk kb.ed25519Priv ∧
  kb.dilithiumPriv ≠ [] ∧ ByteOk kb.dilithiumPriv

instance (kb : KeyBundle) : Decidable (KbOk kb) := by
  unfold KbOk; infer_instance

theorem privJson_roundtrip (kb : KeyBundle) (hkb : KbOk kb) :
    ∃ pj : PrivJson, toJsonPrivate kb = some pj ∧
      fromJsonPrivate pj = some kb := by
  obtain ⟨hx, hxOk, he, heOk, hdp, hdpOk, hxp, hxpOk, hep, hepOk, hdv, hdvOk⟩ :=
    hkb
  have hxlen : (spkiHeaderX25519 ++ kb.x25519Pub).length = 44 := by
    simp [spkiHeaderX25519, hx]
  have helen : (spkiHeaderEd25519 ++ kb.ed25519Pub).length = 44 := by
    simp [spkiHeaderEd25519, he]
  have hxDerOk : ByteOk (spkiHeaderX25519 ++ kb.x25519Pub) := by
    intro b hb
    rcases List.mem_append.mp hb with hb | hb
    · simp [spkiHeaderX25519] at hb; omega
    · exact hxOk b hb
  have heDerOk : ByteOk (spkiHeaderEd25519 ++ kb.ed25519Pub) := by
    intro b hb
    rcases List.mem_append.mp hb with hb | hb
    · simp [spkiHeaderEd25519] at hb; omega
    · exact heOk b hb
  refine ⟨⟨base64Encode (spkiHeaderX25519 ++ kb.x25519Pub),
           base64Encode (spkiHeaderEd25519 ++ kb.ed25519Pub),
           base64Encode kb.dilithiumPub, base64Encode kb.x25519Priv,
           base64Encode kb.ed25519Priv, base64Encode kb.dilithiumPriv⟩,
         ?_, ?_⟩
  · simp [toJsonPrivate, derWrapX25519, derWrapEd25519, hx, he, hxlen, helen]
  · have htakeX : (spkiHeaderX25519 ++ kb.x25519Pub).take 12 =
        spkiHeaderX25519 := by
      have : (12 : Nat) = spkiHeaderX25519.length := by simp [spkiHeaderX25519]
      rw [this, List.take_left]
    have hdropX : (spkiHeaderX25519 ++ kb.x25519Pub).drop 12 = kb.x25519Pub := by
      have : (12 : Nat) = spkiHeaderX25519.length := by simp [spkiHeaderX25519]
      rw [this, List.drop_left]
    have htakeE : (spkiHeaderEd25519 ++ kb.ed25519Pub).take 12 =
        spkiHeaderEd25519 := by
      have : (12 : Nat) = spkiHeaderEd25519.length := by simp [spkiHeaderEd25519]
      rw [this, List.take_left]
    have hdropE : (spkiHeaderEd25519 ++ kb.ed25519Pub).drop 12 =
        kb.ed25519Pub := by
      have : (12 : Nat) = spkiHeaderEd25519.length := by simp [spkiHeaderEd25519]
      rw [this, List.drop_left]
    simp only [fromJsonPrivate, base64_roundtrip _ hxDerOk,
      base64_roundtrip _ heDerOk, base64_roundtrip _ hdpOk,
      base64_roundtrip _ hxpOk, base64_roundtrip _ hepOk,
      base64_roundtrip _ hdvOk, hxlen, helen, and_self, if_true,
      parseX25519Spki, parseEd25519Spki, htakeX, htakeE, reduceIte]
    simp [hdropX, hdropE, hx, he, hdp, hxp, hep, hdv]

/-! ## The password vault (`clientstore.cpp`).

`setUserWithPassword` (registration), `loginAndDecrypt` (unlock) and
`changePassword` are translated with their randomness (`RAND_bytes` salt,
master key, the two encryption IVs) and the Argon2id derivation
(`crypto_pwhash`, libsodium — the parameter `kdf`) made explicit.  CTR
decryption cannot detect a wrong key, so a failed unlock is observed
through the specific error strings the code sets (modelled as the
constructors of `LoginError`) or through an exception propagating out of
`json::parse` / `Symmetric::decrypt` (modelled as the `exceptionResult`
constructors). -/

structure UserInfo where
  username : List Nat
  salt : List Nat
  masterNonce : List Nat
  masterEnc : List Nat
  privNonce : List Nat
  privEnc : List Nat
  masterKey : List Nat
  fullBundle : KeyBundle
  publicBundle : KeyBundle
deriving DecidableEq

def setUserWithPassword (F : List Nat → List Nat → List Nat)
    (kdf : List Nat → List Nat → List Nat) (dump : PrivJson → List Nat)
    (salt MEK ivMaster ivPriv : List Nat)
    (username password : List Nat) (fullKb : KeyBundle) : Option UserInfo :=
  match Symmetric.encrypt F ivMaster MEK (kdf password salt) with
  | none => none
  | some cMaster =>
      match toJsonPrivate fullKb with
      | none => none
      | some pj =>
          match Symmetric.encrypt F ivPriv (dump pj) MEK with
          | none => none
          | some cPriv =>
              some ⟨username, salt, cMaster.iv, cMaster.data,
                    cPriv.iv, cPriv.data, MEK, fullKb, fullKb⟩

inductive LoginError where
  | noStoredUser
  | usernameMismatch
  | mekDecryptFailed
  | privDecryptFailed
deriving DecidableEq

inductive LoginResult where
  | failureResult (e : LoginError)
  | exceptionResult
  | successResult (u : UserInfo)
deriving DecidableEq

def loginAndDecrypt (F : List Nat → List Nat → List Nat)
    (kdf : List Nat → List Nat → List Nat)
    (parse : List Nat → Option PrivJson)
    (username password : List Nat) (state : Option UserInfo) : LoginResult :=
  match state with
  | none => .failureResult .noStoredUser
  | some stored =>
      if stored.username ≠ username then .failureResult .usernameMismatch
      else
        match Symmetric.decrypt F stored.masterEnc (kdf password stored.salt)
            stored.masterNonce with
        | none => .exceptionResult
        | some MEK =>
            if MEK = [] then .failureResult .mekDecryptFailed
            else
              match Symmetric.decrypt F stored.privEnc MEK
                  stored.privNonce with
              | none => .exceptionResult
              | some privBytes =>
                  if privBytes = [] then .failureResult .privDecryptFailed
                  else
                    match parse privBytes with
                    | none => .exceptionResult
                    | some pj =>
                        match fromJsonPrivate pj with
                        | none => .exceptionResult
                        | some kb =>
                            .successResult
                              { stored with masterKey := MEK,
                                            fullBundle := kb }

inductive ChangeError where
  | noUserLoaded
  | oldPasswordIncorrect
deriving DecidableEq

inductive ChangeResult where
  | failureResult (e : ChangeError)
  | exceptionResult
  | successResult (u : UserInfo)
deriving DecidableEq

def changePassword (F : List Nat → List Nat → List Nat)
    (kdf : List Nat → List Nat → List Nat) (newSalt newIv : List Nat)
    (oldPassword newPassword : List Nat) (state : Option UserInfo) :
    ChangeResult :=
  match state with
  | none => .failureResult .noUserLoaded
  | some stored =>
      match Symmetric.decrypt F stored.masterEnc
          (kdf oldPassword stored.salt) stored.masterNonce with
      | none => .exceptionResult
      | some MEK =>
          if MEK = [] then .failureResult .oldPasswordIncorrect
          else
            match Symmetric.encrypt F newIv MEK (kdf newPassword newSalt) with
            | none => .exceptionResult
            | some c =>
                .successResult
                  { stored with salt := newSalt, masterNonce := c.iv,
                                masterEnc := c.data }

/-- C4: after registering an identity under a username and password, a
subsequent unlock with the same username and password succeeds and the
private identity it decrypts — all three private keys and all three public
keys — is bitwise-identical to the identity that was registered.  The
Argon2id derivation and nlohmann-json text round-trip are external and
constrained by their contracts. -/
theorem vault_register_unlock_roundtrip
    (F : List Nat → List Nat → List Nat)
    (kdf : List Nat → List Nat → List Nat) (dump : PrivJson → List Nat)
    (parse : List Nat → Option PrivJson)
    (salt MEK ivMaster ivPriv username password : List Nat) (kb : KeyBundle)
    (hF : ∀ key : List Nat, BlockOk F key)
    (hkdf : (kdf password salt).length = 32)
    (hjson : ∀ pj : PrivJson, toJsonPrivate kb = some pj →
      parse (dump pj) = some pj ∧ dump pj ≠ [])
    (hMEK : MEK.length = 32)
    (hivM : ivMaster.length = 16) (hivP : ivPriv.length = 16)
    (hkb : KbOk kb) :
    ∃ u : UserInfo,
      setUserWithPassword F kdf dump salt MEK ivMaster ivPriv username
        password kb = some u ∧
      loginAndDecrypt F kdf parse username password (some u) =
        .successResult u ∧
      u.fullBundle = kb := by
  obtain ⟨pj, hto, hfrom⟩ := privJson_roundtrip kb hkb
  obtain ⟨hparse, hdumpne⟩ := hjson pj hto
  have henc1 : Symmetric.encrypt F ivMaster MEK (kdf password salt) =
      some ⟨ctrXor F (kdf password salt) ivMaster MEK, ivMaster⟩ := by
    simp [Symmetric.encrypt, hkdf]
  have henc2 : Symmetric.encrypt F ivPriv (dump pj) MEK =
      some ⟨ctrXor F MEK ivPriv (dump pj), ivPriv⟩ := by
    simp [Symmetric.encrypt, hMEK]
  refine ⟨⟨username, salt, ivMaster, ctrXor F (kdf password salt) ivMaster MEK,
           ivPriv, ctrXor F MEK ivPriv (dump pj), MEK, kb, kb⟩, ?_, ?_, rfl⟩
  · simp [setUserWithPassword, henc1, hto, henc2]
  · have hdec1 : Symmetric.decrypt F
        (ctrXor F (kdf password salt) ivMaster MEK) (kdf password salt)
        ivMaster = some MEK := by
      simp [Symmetric.decrypt, hkdf, hivM, ctrXor_ctrXor (hF _)]
    have hdec2 : Symmetric.decrypt F (ctrXor F MEK ivPriv (dump pj)) MEK
        ivPriv = some (dump pj) := by
      simp [Symmetric.decrypt, hMEK, hivP, ctrXor_ctrXor (hF _)]
    have hMEKne : MEK ≠ [] := by
      intro hc; rw [hc] at hMEK; simp at hMEK
    simp [loginAndDecrypt, hdec1, hdec2, hMEKne, hdumpne, hparse, hfrom]

/-- A concrete well-formed key bundle for witnesses. -/
def kb0 : KeyBundle :=
  ⟨List.replicate 32 1, List.replicate 32 2, [3], List.replicate 32 4,
   List.replicate 64 5, [6]⟩

/-- C4 witness: registering and unlocking `kb0` with concrete randomness
and the trivial instantiations of the external primitives. -/
theorem vault_register_unlock_roundtrip_witness :
    ∃ u : UserInfo,
      setUserWithPassword zeroBlock (fun _ _ => List.replicate 32 0)
        (fun _ => [1]) (List.replicate 16 3) (List.replicate 32 7)
        (List.replicate 16 8) (List.replicate 16 9) aliceBytes [10] kb0 =
        some u ∧
      loginAndDecrypt zeroBlock (fun _ _ => List.replicate 32 0)
        (fun _ => toJsonPrivate kb0) aliceBytes [10] (some u) =
        .successResult u ∧
      u.fullBundle = kb0 :=
  vault_register_unlock_roundtrip zeroBlock (fun _ _ => List.replicate 32 0)
    (fun _ => [1]) (fun _ => toJsonPrivate kb0) (List.replicate 16 3)
    (List.replicate 32 7) (List.replicate 16 8) (List.replicate 16 9)
    aliceBytes [10] kb0 zeroBlock_ok rfl
    (fun pj hpj => ⟨hpj, by simp⟩) rfl rfl rfl (by decide)

/-- C6 amended: failing vault unlocks do not collapse into one generic
result — the code reports cause-specific errors.  An empty (corrupted)
master ciphertext fails with the distinct master-decrypt error while an
empty private ciphertext fails with the distinct private-decrypt error, so
the two failure causes are distinguishable by the caller; a wrong password
is not even caught at this layer, since CTR decryption of the master key
cannot fail and the garbage plaintext first surfaces as a JSON parse
exception. -/
theorem login_failures_distinguishable
    (F : List Nat → List Nat → List Nat)
    (kdf : List Nat → List Nat → List Nat)
    (parse : List Nat → Option PrivJson) (username pw : List Nat)
    (stored1 stored2 : UserInfo)
    (hF : ∀ key : List Nat, BlockOk F key)
    (hk1 : (kdf pw stored1.salt).length = 32)
    (hn1 : stored1.masterNonce.length = 16)
    (hu1 : stored1.username = username) (he1 : stored1.masterEnc = [])
    (hk2 : (kdf pw stored2.salt).length = 32)
    (hn2 : stored2.masterNonce.length = 16)
    (hu2 : stored2.username = username)
    (he2 : stored2.masterEnc.length = 32)
    (hpn2 : stored2.privNonce.length = 16) (hpe2 : stored2.privEnc = []) :
    loginAndDecrypt F kdf parse username pw (some stored1) =
      .failureResult .mekDecryptFailed ∧
    loginAndDecrypt F kdf parse username pw (some stored2) =
      .failureResult .privDecryptFailed ∧
    LoginResult.failureResult .mekDecryptFailed ≠
      LoginResult.failureResult .privDecryptFailed := by
  refine ⟨?_, ?_, by simp⟩
  · have hdec : Symmetric.decrypt F stored1.masterEnc (kdf pw stored1.salt)
        stored1.masterNonce = some [] := by
      simp [Symmetric.decrypt, hk1, hn1, he1, ctrXor]
    simp [loginAndDecrypt, hu1, hdec]
  · have hdec : Symmetric.decrypt F stored2.masterEnc (kdf pw stored2.salt)
        stored2.masterNonce =
        some (ctrXor F (kdf pw stored2.salt) stored2.masterNonce
          stored2.masterEnc) := by
      simp [Symmetric.decrypt, hk2, hn2]
    have hMEKlen : (ctrXor F (kdf pw stored2.salt) stored2.masterNonce
        stored2.masterEnc).length = 32 := by
      rw [ctrXor_length (hF _), he2]
    have hMEKne : ctrXor F (kdf pw stored2.salt) stored2.masterNonce
        stored2.masterEnc ≠ [] := by
      intro hc; rw [hc] at hMEKlen; simp at hMEKlen
    have hdec2 : Symmetric.decrypt F stored2.privEnc
        (ctrXor F (kdf pw stored2.salt) stored2.masterNonce
          stored2.masterEnc) stored2.privNonce = some [] := by
      have hnil : ∀ key iv : List Nat, ctrXor F key iv [] = [] :=
        fun key iv => rfl
      simp [Symmetric.decrypt, hMEKlen, hpn2, hpe2, hnil]
    simp [loginAndDecrypt, hu2, hdec, hMEKne, hdec2]

/-- An empty key bundle used as a placeholder in corrupted vault records. -/
def kbEmpty : KeyBundle := ⟨[], [], [], [], [], []⟩

/-- C6 counterexample: two failing unlock attempts on corrupted records —
one with an empty master-key ciphertext, one with an empty private-bundle
ciphertext — produce two different results, refuting the claim that every
failing unlock yields one single generic result. -/
theorem login_single_generic_error_refuted :
    loginAndDecrypt zeroBlock (fun _ _ => List.replicate 32 0)
      (fun _ => none) aliceBytes [7]
      (some ⟨aliceBytes, List.replicate 16 0, List.replicate 16 0, [],
             List.replicate 16 0, List.replicate 8 1, [], kbEmpty,
             kbEmpty⟩) =
      .failureResult .mekDecryptFailed ∧
    loginAndDecrypt zeroBlock (fun _ _ => List.replicate 32 0)
      (fun _ => none) aliceBytes [7]
      (some ⟨aliceBytes, List.replicate 16 0, List.replicate 16 0,
             List.replicate 32 0, List.replicate 16 0, [], [], kbEmpty,
             kbEmpty⟩) =
      .failureResult .privDecryptFailed ∧
    LoginResult.failureResult .mekDecryptFailed ≠
      LoginResult.failureResult .privDecryptFailed := by
  refine ⟨by decide, by decide, by decide⟩

/-- C6 witness for the amended statement, at two concrete corrupted
records. -/
theorem login_failures_distinguishable_witness :
    loginAndDecrypt zeroBlock (fun _ _ => List.replicate 32 0)
      (fun _ => none) aliceBytes [11]
      (some ⟨aliceBytes, List.replicate 16 2, List.replicate 16 2, [],
             List.replicate 16 2, List.replicate 8 3, [], kbEmpty,
             kbEmpty⟩) =
      .failureResult .mekDecryptFailed ∧
    loginAndDecrypt zeroBlock (fun _ _ => List.replicate 32 0)
      (fun _ => none) aliceBytes [11]
      (some ⟨aliceBytes, List.replicate 16 2, List.replicate 16 2,
             List.replicate 32 9, List.replicate 16 2, [], [], kbEmpty,
             kbEmpty⟩) =
      .failureResult .privDecryptFailed ∧
    LoginResult.failureResult .mekDecryptFailed ≠
      LoginResult.failureResult .privDecryptFailed :=
  login_failures_distinguishable zeroBlock (fun _ _ => List.replicate 32 0)
    (fun _ => none) aliceBytes [11]
    ⟨aliceBytes, List.replicate 16 2, List.replicate 16 2, [],
     List.replicate 16 2, List.replicate 8 3, [], kbEmpty, kbEmpty⟩
    ⟨aliceBytes, List.replicate 16 2, List.replicate 16 2,
     List.replicate 32 9, List.replicate 16 2, [], [], kbEmpty, kbEmpty⟩
    zeroBlock_ok rfl rfl rfl rfl rfl rfl rfl (by decide) rfl rfl

/-- C7: a successful password change decrypts the master key under the old
password-derived key and re-encrypts that same master key under the new
one: the master key recoverable from the new wrapping equals the one
recoverable from the old wrapping, the private-identity fields privEnc and
privNonce are byte-for-byte unchanged (as are username, public bundle and
the in-memory decrypted state), and only salt, masterNonce and masterEnc
are replaced. -/
theorem change_password_frame
    (F : List Nat → List Nat → List Nat)
    (kdf : List Nat → List Nat → List Nat)
    (newSalt newIv oldPw newPw : List Nat) (stored : UserInfo)
    (hF : ∀ key : List Nat, BlockOk F key)
    (hkOld : (kdf oldPw stored.salt).length = 32)
    (hkNew : (kdf newPw newSalt).length = 32)
    (hmn : stored.masterNonce.length = 16) (hni : newIv.length = 16)
    (hme : stored.masterEnc ≠ []) :
    ∃ u : UserInfo,
      changePassword F kdf newSalt newIv oldPw newPw (some stored) =
        .successResult u ∧
      u.privEnc = stored.privEnc ∧ u.privNonce = stored.privNonce ∧
      u.username = stored.username ∧ u.publicBundle = stored.publicBundle ∧
      u.masterKey = stored.masterKey ∧ u.fullBundle = stored.fullBundle ∧
      u.salt = newSalt ∧ u.masterNonce = newIv ∧
      Symmetric.decrypt F u.masterEnc (kdf newPw newSalt) u.masterNonce =
        Symmetric.decrypt F stored.masterEnc (kdf oldPw stored.salt)
          stored.masterNonce := by
  have hdecOld : Symmetric.decrypt F stored.masterEnc (kdf oldPw stored.salt)
      stored.masterNonce =
      some (ctrXor F (kdf oldPw stored.salt) stored.masterNonce
        stored.masterEnc) := by
    simp [Symmetric.decrypt, hkOld, hmn]
  have hMEKne : ctrXor F (kdf oldPw stored.salt) stored.masterNonce
      stored.masterEnc ≠ [] := by
    intro hc
    have hl := ctrXor_length (hF (kdf oldPw stored.salt)) stored.masterNonce
      stored.masterEnc
    rw [hc] at hl
    have hzero : stored.masterEnc.length = 0 := by simpa using hl.symm
    exact hme (List.length_eq_zero.mp hzero)
  have hencNew : Symmetric.encrypt F newIv
      (ctrXor F (kdf oldPw stored.salt) stored.masterNonce stored.masterEnc)
      (kdf newPw newSalt) =
      some ⟨ctrXor F (kdf newPw newSalt) newIv
              (ctrXor F (kdf oldPw stored.salt) stored.masterNonce
                stored.masterEnc), newIv⟩ := by
    simp [Symmetric.encrypt, hkNew]
  refine ⟨{ stored with
      salt := newSalt
      masterNonce := newIv
      masterEnc := ctrXor F (kdf newPw newSalt) newIv
        (ctrXor F (kdf oldPw stored.salt) stored.masterNonce
          stored.masterEnc) },
    ?_, rfl, rfl, rfl, rfl, rfl, rfl, rfl, rfl, ?_⟩
  · simp [changePassword, hdecOld, hMEKne, hencNew]
  · rw [hdecOld]
    simp [Symmetric.decrypt, hkNew, hni, ctrXor_ctrXor (hF _)]

/-- C7 witness: a concrete stored record and concrete new salt, IV and
passwords. -/
theorem change_password_frame_witness :
    ∃ u : UserInfo,
      changePassword zeroBlock (fun _ _ => List.replicate 32 0)
        (List.replicate 16 4) (List.replicate 16 5) [1] [2]
        (some ⟨aliceBytes, List.replicate 16 0, List.replicate 16 0,
               List.replicate 32 0, List.replicate 16 3, [9], [1], kbEmpty,
               kbEmpty⟩) = .successResult u ∧
      u.privEnc = [9] ∧ u.privNonce = List.replicate 16 3 ∧
      u.username = aliceBytes ∧ u.publicBundle = kbEmpty ∧
      u.masterKey = [1] ∧ u.fullBundle = kbEmpty ∧
      u.salt = List.replicate 16 4 ∧ u.masterNonce = List.replicate 16 5 ∧
      Symmetric.decrypt zeroBlock u.masterEnc
        ((fun _ _ => List.replicate 32 0) [2] (List.replicate 16 4))
        u.masterNonce =
      Symmetric.decrypt zeroBlock (List.replicate 32 0)
        ((fun _ _ => List.replicate 32 0) [1] (List.replicate 16 0))
        (List.replicate 16 0) :=
  change_password_frame zeroBlock (fun _ _ => List.replicate 32 0)
    (List.replicate 16 4) (List.replicate 16 5) [1] [2]
    ⟨aliceBytes, List.replicate 16 0, List.replicate 16 0,
     List.replicate 32 0, List.replicate 16 3, [9], [1], kbEmpty, kbEmpty⟩
    zeroBlock_ok rfl rfl rfl rfl (by decide)

end FS
